import Mathlib

/-!
Shallow embedding of tide's handler-abstraction layer (`src/endpoint.rs`):
the `Endpoint` trait and its blanket implementation for async functions.

Modelling choices:
* A deterministic single-value future (as driven by a single executor) is
  characterized by its observable poll behaviour: it answers `pending` for
  some number of polls and then answers `ready v` forever.  `NativeFut`
  records that behaviour as the remaining `steps` before readiness and the
  resolved `value`.
* The composed computation `async move { fut.await.into_response() }` from
  the blanket impl is the state machine `AdaptedFut`, whose state owns the
  native future it is awaiting (as the Rust async block owns `fut`).
* The canonical boxed computation `BoxFuture<'static, Response>` is
  represented by its observable poll trace: the poll answer after `k`
  previous polls.
-/

/-- Result of polling a future: `Poll::Pending` or `Poll::Ready(v)`. -/
inductive Poll (β : Type) where
  | pending : Poll β
  | ready : β → Poll β
deriving DecidableEq, Repr

/-- Map a function over the ready value of a poll answer. -/
def Poll.map (g : β → γ) : Poll β → Poll γ
  | Poll.pending => Poll.pending
  | Poll.ready v => Poll.ready (g v)

/-- A deterministic single-value future in the driver's model: it answers
`pending` to the next `steps` polls and then resolves to `value`. -/
structure NativeFut (α : Type) where
  steps : Nat
  value : α
deriving DecidableEq, Repr

/-- One poll of a native future: the answer, and the state afterwards. -/
def NativeFut.poll (fut : NativeFut α) : Poll α × NativeFut α :=
  match fut.steps with
  | 0 => (Poll.ready fut.value, fut)
  | Nat.succ k => (Poll.pending, NativeFut.mk k fut.value)

/-- State of a native future after `n` polls. -/
def NativeFut.pollN (fut : NativeFut α) : Nat → NativeFut α
  | 0 => fut
  | Nat.succ n => NativeFut.pollN fut.poll.2 n

/-- Poll answer of a native future after `k` previous polls. -/
def NativeFut.traceAt (fut : NativeFut α) (k : Nat) : Poll α :=
  (fut.pollN k).poll.1

/-- Modelled from the spec (`response.rs` is not in the sources): the
canonical `Response` value, carrying a status code and a body. -/
structure Response where
  status : Nat
  body : String
deriving DecidableEq, Repr

/-- Modelled from the spec (`response.rs` is not in the sources): the
response-conversion capability — `IntoResponse`, deterministically turning
a handler result into exactly one `Response`, with no failure case. -/
class IntoResponse (α : Type) where
  into_response : α → Response

export IntoResponse (into_response)

/-- Modelled from the spec (`response.rs` is not in the sources): `String`
converts to a 200-status response with the string as body. -/
instance : IntoResponse String :=
  IntoResponse.mk (fun s => Response.mk 200 s)

/-- A `Response` is already canonical; its conversion is the identity. -/
instance : IntoResponse Response :=
  IntoResponse.mk (fun r => r)

/-- Modelled from the spec (`request.rs` is not in the sources): the opaque,
generic-over-state request context, moved into the handler by value. -/
structure Request (State : Type) where
  state : State
deriving DecidableEq, Repr

/-- State of the composed computation
`async move { fut.await.into_response() }` built by the blanket
`Endpoint::call` (endpoint.rs line 68): it owns the native future `fut`
that it is awaiting. -/
structure AdaptedFut (α : Type) where
  native : NativeFut α
deriving DecidableEq, Repr

/-- One poll of the composed computation: poll the owned native future at
its single await point; if it is ready, apply `into_response` and resolve,
otherwise stay pending. -/
def AdaptedFut.poll [IntoResponse α] (c : AdaptedFut α) : Poll Response × AdaptedFut α :=
  match c.native.poll with
  | (Poll.ready v, n) => (Poll.ready (into_response v), AdaptedFut.mk n)
  | (Poll.pending, n) => (Poll.pending, AdaptedFut.mk n)

/-- State of the composed computation after `n` polls. -/
def AdaptedFut.pollN [IntoResponse α] (c : AdaptedFut α) : Nat → AdaptedFut α
  | 0 => c
  | Nat.succ n => AdaptedFut.pollN c.poll.2 n

/-- Poll answer of the composed computation after `k` previous polls. -/
def AdaptedFut.traceAt [IntoResponse α] (c : AdaptedFut α) (k : Nat) : Poll Response :=
  (c.pollN k).poll.1

/-- The canonical boxed computation `BoxFuture<'static, Response>`
(`utils::BoxFuture`), observed through its poll trace: the answer returned
after `k` previous polls. -/
def BoxFuture (β : Type) : Type := Nat → Poll β

/-- Boxing the composed computation erases its concrete type to the
canonical `BoxFuture Response` shape. -/
def AdaptedFut.box [IntoResponse α] (c : AdaptedFut α) : BoxFuture Response :=
  fun k => c.traceAt k

/-- A boxed computation resolves to `v`: from some poll on it always
answers `ready v`. -/
def BoxFuture.resolvesTo (b : BoxFuture β) (v : β) : Prop :=
  ∃ n, ∀ k, n ≤ k → b k = Poll.ready v

/-- The value obtained by manually awaiting a native future (driving it to
resolution). -/
def NativeFut.awaitValue (fut : NativeFut α) : α :=
  fut.value

/-- `Endpoint::call` of the blanket implementation (endpoint.rs lines
66-69): apply the wrapped callable to the context to obtain its native
future, then box the composed `await`-then-`into_response` computation. -/
def Endpoint.call {State α : Type} [IntoResponse α]
    (f : Request State → NativeFut α) (cx : Request State) : BoxFuture Response :=
  let fut := f cx
  (AdaptedFut.mk fut).box

/-- The type-erased handler shape stored by the router
(endpoint.rs lines 56-57). -/
def DynEndpoint (State : Type) : Type :=
  Request State → BoxFuture Response

/-- The single generic adapter: any qualifying callable becomes a
`DynEndpoint` through the blanket `Endpoint::call`. -/
def toDynEndpoint {State α : Type} [IntoResponse α]
    (f : Request State → NativeFut α) : DynEndpoint State :=
  fun cx => Endpoint.call f cx

/-- The composed computation reconstructed from the native future alone;
`Endpoint.call` factors through it (see the eager-application theorem). -/
def adaptFut {α : Type} [IntoResponse α] (fut : NativeFut α) : BoxFuture Response :=
  (AdaptedFut.mk fut).box

/- ### Basic lemmas about the poll machines -/

/-- Polling a native future `steps + k` times leaves it resolved. -/
theorem NativeFut.pollN_steps (fut : NativeFut α) :
    ∀ k, fut.pollN (fut.steps + k) = NativeFut.mk 0 fut.value := by
  rcases fut with ⟨s, v⟩
  induction s with
  | zero =>
    intro k
    induction k with
    | zero => rfl
    | succ k ih => simpa [NativeFut.pollN, NativeFut.poll] using ih
  | succ s ih =>
    intro k
    simpa [NativeFut.pollN, NativeFut.poll, Nat.succ_add] using ih k

/-- The trace of a native future: pending strictly before `steps`, ready
with `value` from `steps` on. -/
theorem NativeFut.traceAt_eq (fut : NativeFut α) (k : Nat) :
    fut.traceAt k = if fut.steps ≤ k then Poll.ready fut.value else Poll.pending := by
  rcases fut with ⟨s, v⟩
  induction s generalizing k with
  | zero =>
    induction k with
    | zero => rfl
    | succ k ih =>
      simpa [NativeFut.traceAt, NativeFut.pollN, NativeFut.poll] using ih
  | succ s ih =>
    cases k with
    | zero => simp [NativeFut.traceAt, NativeFut.pollN, NativeFut.poll]
    | succ k =>
      have h := ih k
      simpa [NativeFut.traceAt, NativeFut.pollN, NativeFut.poll,
        Nat.succ_le_succ_iff] using h

/-- Lockstep, state form: after `k` polls of the composed computation, its
owned native future is exactly the native future after `k` polls. -/
theorem AdaptedFut.pollN_native [IntoResponse α] (fut : NativeFut α) (k : Nat) :
    (AdaptedFut.mk fut).pollN k = AdaptedFut.mk (fut.pollN k) := by
  induction k generalizing fut with
  | zero => rfl
  | succ k ih =>
    have h : (AdaptedFut.mk fut).poll.2 = AdaptedFut.mk fut.poll.2 := by
      rcases fut with ⟨s, v⟩
      cases s with
      | zero => simp [AdaptedFut.poll, NativeFut.poll]
      | succ s => simp [AdaptedFut.poll, NativeFut.poll]
    calc (AdaptedFut.mk fut).pollN (k + 1)
        = (AdaptedFut.mk fut.poll.2).pollN k := by
          simp [AdaptedFut.pollN, h]
      _ = AdaptedFut.mk (fut.poll.2.pollN k) := ih fut.poll.2
      _ = AdaptedFut.mk (fut.pollN (k + 1)) := by simp [NativeFut.pollN]

/-- The composed computation's poll answer is pointwise the native poll
answer with `into_response` applied to the ready value. -/
theorem AdaptedFut.traceAt_eq_map [IntoResponse α] (fut : NativeFut α) (k : Nat) :
    (AdaptedFut.mk fut).traceAt k = Poll.map into_response (fut.traceAt k) := by
  have h := AdaptedFut.pollN_native (α := α) fut k
  unfold AdaptedFut.traceAt NativeFut.traceAt
  rw [h]
  rcases hn : fut.pollN k with ⟨s, v⟩
  cases s with
  | zero => simp [AdaptedFut.poll, NativeFut.poll, Poll.map]
  | succ s => simp [AdaptedFut.poll, NativeFut.poll, Poll.map]

/-- The blanket call's observable trace is the native trace with
`into_response` applied to the ready value. -/
theorem Endpoint.call_trace {State α : Type} [IntoResponse α]
    (f : Request State → NativeFut α) (cx : Request State) (k : Nat) :
    Endpoint.call f cx k = Poll.map into_response ((f cx).traceAt k) :=
  AdaptedFut.traceAt_eq_map (f cx) k

/-- The boxed adapted computation resolves to the converted await value. -/
theorem adaptFut_resolvesTo {α : Type} [IntoResponse α] (fut : NativeFut α) :
    BoxFuture.resolvesTo (adaptFut fut) (into_response fut.awaitValue) := by
  refine ⟨fut.steps, fun k hk => ?_⟩
  have h := AdaptedFut.traceAt_eq_map fut k
  have h2 := fut.traceAt_eq k
  rw [if_pos hk] at h2
  show (AdaptedFut.mk fut).traceAt k = _
  rw [h, h2]
  rfl

/-- A boxed computation resolves to at most one value. -/
theorem BoxFuture.resolvesTo_unique {β : Type} (b : BoxFuture β) (v w : β)
    (hv : b.resolvesTo v) (hw : b.resolvesTo w) : v = w := by
  rcases hv with ⟨n, hn⟩
  rcases hw with ⟨m, hm⟩
  have h1 := hn (n + m) (Nat.le_add_right n m)
  have h2 := hm (n + m) (Nat.le_add_left m n)
  rw [h1] at h2
  exact (Poll.ready.injEq v w).mp h2

/-- The endpoint from the spec's hello scenario: an async function that
immediately returns the literal `String` value `"hello"`. -/
def hello (State : Type) : Request State → NativeFut String :=
  fun _ => NativeFut.mk 0 "hello"

/- ### Claim theorems -/

/-- C1. Conversion-equivalence: for every adaptable callable `f` and
request context `cx`, driving the adapted handler's `call cx` to
resolution yields exactly `into_response` of the value obtained by
manually awaiting `f cx`; moreover the adapted computation's whole poll
trace is pointwise the native trace with `into_response` applied to the
ready value — the adapter sequences "await, then convert" and nothing
else: it never swallows, retries, or alters the wrapped result. -/
theorem conversion_equivalence {State α : Type} [IntoResponse α]
    (f : Request State → NativeFut α) (cx : Request State) :
    BoxFuture.resolvesTo (Endpoint.call f cx) (into_response ((f cx).awaitValue)) ∧
      ∀ k, Endpoint.call f cx k = Poll.map into_response ((f cx).traceAt k) :=
  ⟨adaptFut_resolvesTo (f cx), fun k => Endpoint.call_trace f cx k⟩

/-- C2. Total conversion / no failure channel: for every adapted callable
and every request context, `call` cannot fail — the returned computation
(of type `BoxFuture Response`, not a `Result` or `Option`) resolves to
exactly one well-formed `Response` value. -/
theorem total_conversion {State α : Type} [IntoResponse α]
    (f : Request State → NativeFut α) (cx : Request State) :
    ∃! r : Response, BoxFuture.resolvesTo (Endpoint.call f cx) r := by
  refine ⟨into_response ((f cx).awaitValue), adaptFut_resolvesTo (f cx), ?_⟩
  intro w hw
  exact BoxFuture.resolvesTo_unique (Endpoint.call f cx) w _ hw (adaptFut_resolvesTo (f cx))

/-- C3. Blanket adaptation: every callable accepting one `Request State`
by value and returning a future whose output has the response-conversion
capability satisfies the handler capability contract automatically,
through the one generic adapter `toDynEndpoint` (built on the single
blanket `Endpoint.call`): the resulting type-erased handler resolves, for
every context, to the converted await value of the native future. -/
theorem blanket_adaptation {State α : Type} [IntoResponse α]
    (f : Request State → NativeFut α) :
    ∃ e : DynEndpoint State, e = toDynEndpoint f ∧
      ∀ cx : Request State,
        BoxFuture.resolvesTo (e cx) (into_response ((f cx).awaitValue)) :=
  ⟨toDynEndpoint f, rfl, fun cx => adaptFut_resolvesTo (f cx)⟩

/-- C4. Hello scenario: adapting the function returning the literal
`String` value `"hello"` (whose conversion yields a 200-status response
with that body) and invoking it with any well-formed context resolves to
the response with status 200 and body `"hello"`. -/
theorem hello_scenario {State : Type} (cx : Request State) :
    BoxFuture.resolvesTo (Endpoint.call (hello State) cx) (Response.mk 200 "hello") :=
  adaptFut_resolvesTo (hello State cx)

/-- C5. Cancellation propagation: after the driver has polled the
composed computation `k` times, its state is exactly the adapter state
owning the native future polled `k` times — the native computation is
owned by the composed one and advances only, and exactly, when the
composed computation is polled.  Hence a caller that abandons the
composed computation after `k` polls abandons the native computation at
that same point: the adapter never detaches the two. -/
theorem cancellation_propagation {State α : Type} [IntoResponse α]
    (f : Request State → NativeFut α) (cx : Request State) (k : Nat) :
    (AdaptedFut.mk (f cx)).pollN k = AdaptedFut.mk ((f cx).pollN k) :=
  AdaptedFut.pollN_native (f cx) k

/-- C6. Two-stage pipeline with a single suspension point: the composed
computation built by `call` suspends exactly when the awaited native
future suspends (its one adapter-introduced suspension point), and as
soon as it answers ready it has reached its single terminal success
state: the ready value is the converted await value and every later poll
answers the same — two suspension-relevant states, no branching, and (by
the `Poll Response` answer type) no failure state at this layer. -/
theorem two_stage_pipeline {State α : Type} [IntoResponse α]
    (f : Request State → NativeFut α) (cx : Request State) (k : Nat) :
    ((AdaptedFut.mk (f cx)).traceAt k = Poll.pending ↔ (f cx).traceAt k = Poll.pending) ∧
      ∀ r, (AdaptedFut.mk (f cx)).traceAt k = Poll.ready r →
        r = into_response (f cx).awaitValue ∧
          ∀ j, k ≤ j → (AdaptedFut.mk (f cx)).traceAt j = Poll.ready r := by
  constructor
  · rw [AdaptedFut.traceAt_eq_map]
    cases h : (f cx).traceAt k <;> simp [Poll.map]
  · intro r hr
    rw [AdaptedFut.traceAt_eq_map, NativeFut.traceAt_eq] at hr
    by_cases hk : (f cx).steps ≤ k
    · rw [if_pos hk] at hr
      simp only [Poll.map, Poll.ready.injEq] at hr
      refine ⟨hr.symm, fun j hj => ?_⟩
      rw [AdaptedFut.traceAt_eq_map, NativeFut.traceAt_eq,
        if_pos (le_trans hk hj)]
      simp [Poll.map, hr]
    · rw [if_neg hk] at hr
      simp [Poll.map] at hr

/-- Interleaved execution of two independent composed computations under
a schedule: `true` polls the first computation once, `false` the second. -/
def runTwo {α β : Type} [IntoResponse α] [IntoResponse β] :
    List Bool → AdaptedFut α × AdaptedFut β → AdaptedFut α × AdaptedFut β
  | [], p => p
  | true :: s, p => runTwo s (p.1.poll.2, p.2)
  | false :: s, p => runTwo s (p.1, p.2.poll.2)

/-- Helper: interleaved execution of two composed computations is
schedule-independent — each ends in the state reached by exactly its own
number of polls. -/
theorem runTwo_eq {α β : Type} [IntoResponse α] [IntoResponse β]
    (s : List Bool) (a : AdaptedFut α) (b : AdaptedFut β) :
    runTwo s (a, b) = (a.pollN (s.count true), b.pollN (s.count false)) := by
  induction s generalizing a b with
  | nil => rfl
  | cons x s ih =>
    cases x with
    | true =>
      rw [show runTwo (true :: s) (a, b) = runTwo s (a.poll.2, b) from rfl, ih]
      simp [List.count_cons, AdaptedFut.pollN]
    | false =>
      rw [show runTwo (false :: s) (a, b) = runTwo s (a, b.poll.2) from rfl, ih]
      simp [List.count_cons, AdaptedFut.pollN]

/-- C7. Concurrent shareability: one adapted handler is shared across
invocations — two concurrent invocations of adapted callables, driven
under an arbitrary interleaving schedule and with no synchronization,
each progress exactly as if driven alone: the joint outcome depends only
on how many polls each invocation received, never on the interleaving,
so concurrent invocations of the shared handler cannot interfere. -/
theorem concurrent_shareability {State α β : Type} [IntoResponse α] [IntoResponse β]
    (f : Request State → NativeFut α) (g : Request State → NativeFut β)
    (cx₁ cx₂ : Request State) (s : List Bool) :
    runTwo s (AdaptedFut.mk (f cx₁), AdaptedFut.mk (g cx₂)) =
      ((AdaptedFut.mk (f cx₁)).pollN (s.count true),
        (AdaptedFut.mk (g cx₂)).pollN (s.count false)) :=
  runTwo_eq s (AdaptedFut.mk (f cx₁)) (AdaptedFut.mk (g cx₂))

/-- C8. Adaptation idempotence: any two handler capabilities obtained by
adapting the same callable `f` — even as distinct instances — are
functionally indistinguishable: for every request context they produce
poll-for-poll identical computations, hence the same `Response`. -/
theorem adaptation_idempotence {State α : Type} [IntoResponse α]
    (f : Request State → NativeFut α) (e₁ e₂ : DynEndpoint State)
    (h₁ : e₁ = toDynEndpoint f) (h₂ : e₂ = toDynEndpoint f) :
    ∀ (cx : Request State) (k : Nat), e₁ cx k = e₂ cx k := by
  subst h₁
  subst h₂
  intro cx k
  rfl

/-- Witness for C8 at a concrete callable and context. -/
theorem adaptation_idempotence_witness :
    toDynEndpoint (hello Unit) (Request.mk ()) 0 = Poll.ready (Response.mk 200 "hello") ∧
      toDynEndpoint (hello Unit) (Request.mk ()) 0 = toDynEndpoint (hello Unit) (Request.mk ()) 0 :=
  ⟨by decide,
    adaptation_idempotence (hello Unit) (toDynEndpoint (hello Unit))
      (toDynEndpoint (hello Unit)) rfl rfl (Request.mk ()) 0⟩

/-- C10. Eager application of the wrapped callable: `call` applies `f` to
`cx` at call time — the returned boxed computation is `adaptFut` of the
already-computed native future, and it depends on `f` and `cx` only
through that native future: any two calls whose wrapped callables return
the same native future return identical computations, so everything `f`
does before returning its future happens inside `call` itself, and only
awaiting and conversion are deferred. -/
theorem eager_application {State State' α : Type} [IntoResponse α]
    (f : Request State → NativeFut α) (g : Request State' → NativeFut α)
    (cx : Request State) (cx' : Request State') (h : f cx = g cx') :
    Endpoint.call f cx = adaptFut (f cx) ∧
      Endpoint.call f cx = Endpoint.call g cx' := by
  refine ⟨rfl, ?_⟩
  show adaptFut (f cx) = adaptFut (g cx')
  rw [h]

/-- Witness for C10: two different callables over different state types
returning the same native future yield identical boxed computations. -/
theorem eager_application_witness :
    Endpoint.call (hello Unit) (Request.mk ()) = adaptFut (hello Unit (Request.mk ())) ∧
      Endpoint.call (hello Unit) (Request.mk ()) =
        Endpoint.call (fun _ : Request Nat => NativeFut.mk 0 "hello") (Request.mk 5) :=
  eager_application (hello Unit) (fun _ : Request Nat => NativeFut.mk 0 "hello")
    (Request.mk ()) (Request.mk 5) rfl
